import Mathlib

/-!
# Verification of the iRODS storage plugin against its specification

Shallow embedding of `src/snakemake_storage_plugin_irods/__init__.py`.
The plugin is glue code over the python-irodsclient session object; we embed
each method body as a pure Lean function over the outcomes of the underlying
client-library calls (lookups, transfers), which are passed in explicitly.
Exceptions become an explicit error type; a Python method that can raise is
embedded as a function into `Except`.
-/

set_option autoImplicit false

deriving instance DecidableEq for Except

namespace Irods

/-- The iRODS client-library exceptions the plugin code mentions
(`irods.exception`), plus `other` for any exception outside that set
(network errors and the like, which the plugin never catches). -/
inductive IrodsExc where
  | collectionDoesNotExist
  | dataObjectDoesNotExist
  | catNoAccessPermission
  | catNameExistsAsDataObj
  | other (msg : String)
deriving DecidableEq, Repr

/-!
## `StorageObject.exists` (lines 363-371)

```python
def exists(self) -> bool:
    try:
        self._data_obj()
        return True
    except (CollectionDoesNotExist, DataObjectDoesNotExist):
        return False
```

`self._data_obj()` is `session.data_objects.get(str(self.path))`; we embed
the method as a function of that call's outcome.
-/

/-- `StorageObject.exists`, as a function of the outcome of the
`data_objects.get` lookup it performs. -/
def existsMethod (lookup : Except IrodsExc Unit) : Except IrodsExc Bool :=
  match lookup with
  | .ok _ => .ok true
  | .error .collectionDoesNotExist => .ok false
  | .error .dataObjectDoesNotExist => .ok false
  | .error e => .error e

/-!
## `StorageObject.mtime` (lines 376-386)

```python
def mtime(self) -> float:
    meta = self.provider.session.metadata.get(DataObject, str(self.path))
    for m in meta:
        if m.name == "mtime":
            return float(m.value)
    return self._data_obj().modify_time.timestamp()
```

Metadata entries are embedded as `(name, value)` string pairs; Python
`float(...)` is an external conversion, embedded as an explicit parameter
`pyfloat`; `modify_time.timestamp()` is the entry's native modification
time as seconds since epoch (UTC), embedded as the parameter `modifyTs`.
-/

/-- `StorageObject.mtime`: the `for`/`if`/`return` loop over the metadata
entries, falling back to the native modification timestamp. -/
def mtimeMethod (pyfloat : String → ℚ) (modifyTs : ℚ) :
    List (String × String) → ℚ
  | [] => modifyTs
  | (n, v) :: rest =>
      if n = "mtime" then pyfloat v else mtimeMethod pyfloat modifyTs rest

/-!
## `StorageObject.remove` (lines 438-444)

```python
def remove(self):
    try:
        self.provider.session.collections.unregister(str(self.path))
    except CAT_NAME_EXISTS_AS_DATAOBJ:
        self.provider.session.data_objects.unregister(str(self.path))
```
-/

/-- What `remove` ended up deleting. -/
inductive RemoveAction where
  | removedCollection
  | removedDataObject
deriving DecidableEq, Repr

/-- `StorageObject.remove`, as a function of the outcome of the
`collections.unregister` attempt (the `data_objects.unregister` fallback is
modelled as succeeding). -/
def removeMethod (collUnregister : Except IrodsExc Unit) :
    Except IrodsExc RemoveAction :=
  match collUnregister with
  | .ok _ => .ok .removedCollection
  | .error .catNameExistsAsDataObj => .ok .removedDataObject
  | .error e => .error e

/-!
## `StorageObject.list_candidate_matches` (lines 449-456)

```python
def list_candidate_matches(self) -> Iterable[str]:
    """Return a list of candidate matches in the storage for the query."""
    # ... (comments only)
    ...
```

The body consists of comments and a single bare `...` (Ellipsis) expression
statement: the method performs no remote listing and falls through,
returning `None`.  Embedded as a constant: `none` is Python's `None`, a
`some` value would be a returned iterable of concrete path strings.
-/

/-- `StorageObject.list_candidate_matches`: the body is the bare `...`
expression, so the method returns `None` for every query. -/
def listCandidateMatchesMethod : Option (List String) := none

/-!
## `StorageProvider.__post_init__` (lines 222-264), password resolution

```python
if self.settings.password is None:
    irodsA = os.path.expanduser("~/.irods/.irodsA")
    try:
        with open(irodsA, "r") as r:
            scrambled_password = r.read()
            password = password_obfuscation.decode(scrambled_password)
            authentication_scheme = "native"
    except OSError as err:
        raise Exception("Error: could not retrieve irods_password from"
                        + " settings or ~/.irods/.irodsA file.") from err
else:
    password = self.settings.password
    authentication_scheme = self.settings.authentication_scheme

self.session = iRODSSession(..., password=password,
                            authentication_scheme=authentication_scheme, ...)
```

The read of `~/.irods/.irodsA` is embedded as `irodsAFile : Except Unit
String` (`.error ()` is an `OSError`); `password_obfuscation.decode` is an
external function, embedded as the parameter `decode`.
-/

/-- The credentials handed to `iRODSSession` when the provider opens its
session. -/
structure SessionCredentials where
  password : String
  authenticationScheme : String
deriving DecidableEq, Repr

/-- Failure mode of provider initialization. -/
inductive ProviderInitError where
  /-- The fatal `Exception` raised when no password is configured and
  `~/.irods/.irodsA` cannot be read. -/
  | credentialUnavailable
deriving DecidableEq, Repr

/-- `StorageProvider.__post_init__`, restricted to password/scheme
resolution: `.ok` carries the credentials the session is opened with,
`.error` means initialization raised and no session was opened. -/
def providerPostInit (settingsPassword : Option String)
    (settingsAuthScheme : String) (decode : String → String)
    (irodsAFile : Except Unit String) :
    Except ProviderInitError SessionCredentials :=
  match settingsPassword with
  | none =>
      match irodsAFile with
      | .ok scrambled => .ok ⟨decode scrambled, "native"⟩
      | .error _ => .error .credentialUnavailable
  | some pw => .ok ⟨pw, settingsAuthScheme⟩

/-!
## `StorageObject.retrieve_object` (lines 393-409)

```python
def retrieve_object(self):
    opts = {kw.FORCE_FLAG_KW: ""}
    try:
        # is directory
        collection = self.provider.session.collections.get(str(self.path))
        for _, _, objs in collection.walk():
            for obj in objs:
                self.provoder.session.data_objects.get(
                    obj.path, str(self.local_path() / obj.path), options=opts
                )
    except CollectionDoesNotExist:
        # is file
        self.provider.session.data_objects.get(
            str(self.path), str(self.local_path()), options=opts
        )
```

The collection lookup outcome is `collGet`: `.ok objs` is a successful
lookup whose subsequent `walk()` yields the data objects `objs` (in walk
order, flattened over all walk tuples); `.error e` is a raised exception.
Note the loop body reads `self.provoder` — a misspelling of `provider` —
so the first object reached raises `AttributeError`.  `AttributeError` is
not `CollectionDoesNotExist`, so nothing catches it.
-/

/-- Errors `retrieve_object` can surface: an iRODS client exception, or
the `AttributeError` raised by the `self.provoder` misspelling. -/
inductive RetrieveError where
  | irods (e : IrodsExc)
  | attributeErrorProvoder
deriving DecidableEq, Repr

/-- One completed download: remote source path and local target path. -/
structure Fetch where
  remote : String
  localTarget : String
deriving DecidableEq, Repr

/-- `StorageObject.retrieve_object`, as a function of the collection
lookup outcome `collGet` (see the section comment), the resolved remote
path `path` and the local staging path `localPath`; `.ok` carries the
downloads performed. -/
def retrieveObjectMethod (collGet : Except IrodsExc (List String))
    (path localPath : String) : Except RetrieveError (List Fetch) :=
  match collGet with
  | .ok objs =>
      match objs with
      | [] => .ok []
      | _ :: _ => .error .attributeErrorProvoder
  | .error .collectionDoesNotExist => .ok [⟨path, localPath⟩]
  | .error e => .error (.irods e)

/-!
## `StorageObject.store_object` (lines 414-436)

```python
def store_object(self):
    def mkdir(path):
        try:
            self.provider.session.collections.get(path)
        except CAT_NO_ACCESS_PERMISSION:
            pass
        except CollectionDoesNotExist:
            self.provider.session.collections.create(path)

    for parent in self.path.parents[:-2][::-1]:
        mkdir(str(parent))

    if self.local_path().is_dir():
        mkdir(str(self.path))
        for f in self.local_path().iterdir():
            self.provider.session.data_objects.put(str(f), str(self.path / f.name))
    else:
        self.provider.session.data_objects.put(str(self.local_path()), str(self.path))
```

The absolute remote path is embedded as its list of segments (for
`/zone/home/user/f`, `["zone", "home", "user", "f"]`).  `collGet p` is the
outcome of `collections.get` on path `p`; `collections.create` and
`data_objects.put` are modelled as succeeding, so `.ok` carries the
collections created and the uploads performed, in order.
-/

/-- Path segments of an absolute remote path. -/
abbrev RPath := List String

/-- `pathlib.PurePosixPath.parents` on segment lists: all proper ancestor
paths, nearest first, ending with the root `[]`.  For `[a, b, c]`:
`[[a, b], [a], []]`. -/
def pathParents (segs : RPath) : List RPath :=
  (List.range segs.length).map (fun i => segs.take (segs.length - 1 - i))

/-- `self.path.parents[:-2][::-1]`: drop the last two entries of
`parents` (the two topmost ancestors — the root and the zone-level
collection) and reverse, giving the ancestors to ensure, topmost first. -/
def parentsToMake (segs : RPath) : List RPath :=
  ((pathParents segs).take ((pathParents segs).length - 2)).reverse

/-- The inner `mkdir` helper of `store_object`, as a function of the
`collections.get` outcome on `p`: returns the (possibly empty) list of
collections created, or propagates an unexpected exception. -/
def mkdirHelper (look : Except IrodsExc Unit) (p : RPath) :
    Except IrodsExc (List RPath) :=
  match look with
  | .ok _ => .ok []
  | .error .catNoAccessPermission => .ok []
  | .error .collectionDoesNotExist => .ok [p]
  | .error e => .error e

/-- The `for parent in ...: mkdir(...)` loop: ensure each path in order,
accumulating the collections created. -/
def ensureParents (collGet : RPath → Except IrodsExc Unit) :
    List RPath → Except IrodsExc (List RPath)
  | [] => .ok []
  | p :: rest => do
      let c ← mkdirHelper (collGet p) p
      let cs ← ensureParents collGet rest
      pure (c ++ cs)

/-- The remote effects of a completed `store_object` call. -/
structure StoreResult where
  /-- Collections created, in creation order. -/
  created : List RPath
  /-- Uploads performed: (local file path, remote target path), in order. -/
  uploads : List (String × RPath)
deriving DecidableEq, Repr

/-- The outcomes of `collections.get` that the `mkdir` helper handles
without propagating: success, `CAT_NO_ACCESS_PERMISSION` (tolerated), and
`CollectionDoesNotExist` (triggers creation). -/
def mkdirOk (look : Except IrodsExc Unit) : Prop :=
  look = .ok () ∨ look = .error .catNoAccessPermission
    ∨ look = .error .collectionDoesNotExist

/-- `StorageObject.store_object`: ensure the ancestors
`self.path.parents[:-2][::-1]`, then either (local staging path is a
directory) create the remote collection and upload each immediate child
into it, or (single file) upload the local file to the remote path.
`localChildren` lists the names `iterdir()` yields when the local path is
a directory. -/
def storeObjectMethod (collGet : RPath → Except IrodsExc Unit)
    (path : RPath) (localPath : String) (localIsDir : Bool)
    (localChildren : List String) : Except IrodsExc StoreResult := do
  let created ← ensureParents collGet (parentsToMake path)
  if localIsDir then
    let c2 ← mkdirHelper (collGet path) path
    pure ⟨created ++ c2,
      localChildren.map (fun n => (localPath ++ "/" ++ n, path ++ [n]))⟩
  else
    pure ⟨created, [(localPath, path)]⟩

/-!
## `StorageObject.__post_init__` (lines 323-330) and `local_suffix` (350-352)

```python
def __post_init__(self):
    self.parsed_query = urlparse(self.query)
    self.path = PosixPath(
        f"/{self.parsed_query.netloc}"
    ) / self.parsed_query.path.lstrip("/")

def local_suffix(self) -> str:
    return str(self.path).lstrip("/")
```

Strings are embedded as `List Char` so the character-level operations
(`urlparse` netloc/path split, `str.lstrip("/")`, `PurePosixPath`
segmentation) can be reasoned about directly.
-/

/-- A Python string as a list of characters. -/
abbrev Chars := List Char

/-- Split a string at every `/`, keeping empty pieces (the splitting
underlying `PurePosixPath` parsing). -/
def splitOnSlash : Chars → List Chars
  | [] => [[]]
  | c :: rest =>
      if c = '/' then [] :: splitOnSlash rest
      else
        match splitOnSlash rest with
        | [] => [[c]]
        | h :: t => (c :: h) :: t

/-- The path components `PurePosixPath` derives from a string: split on
`/` and drop empty pieces.  (Inputs here contain no `.` or `..`
components, so no further normalization applies.) -/
def posixSegs (s : Chars) : List Chars :=
  (splitOnSlash s).filter (fun seg => !seg.isEmpty)

/-- `urllib.parse.urlparse` on a locator `scheme://rest`, restricted to
the two fields the plugin reads: `netloc` is `rest` up to the first `/`,
`path` is the remainder (empty or starting with `/`).  The scheme plays
no part in path construction. -/
structure ParsedQuery where
  netloc : Chars
  path : Chars
deriving DecidableEq, Repr

/-- `urlparse` of `scheme://` followed by `rest`. -/
def urlparseRest (rest : Chars) : ParsedQuery :=
  ⟨rest.takeWhile (fun c => c != '/'), rest.dropWhile (fun c => c != '/')⟩

/-- Python `s.lstrip("/")`: remove every leading `/`. -/
def lstripSlash (s : Chars) : Chars :=
  s.dropWhile (fun c => c == '/')

/-- `self.path` as computed by `StorageObject.__post_init__`, as segments
of an absolute path: `PosixPath(f"/{netloc}") / path.lstrip("/")` — the
base contributes the segments of `/netloc` and the joined relative part
contributes its own segments. -/
def resolvedSegs (pq : ParsedQuery) : List Chars :=
  posixSegs ('/' :: pq.netloc) ++ posixSegs (lstripSlash pq.path)

/-- `str()` of an absolute `PurePosixPath` with the given segments. -/
def pathStr (segs : List Chars) : Chars :=
  if segs.isEmpty then ['/']
  else segs.foldl (fun acc seg => acc ++ '/' :: seg) []

/-- `StorageObject.local_suffix`: `str(self.path).lstrip("/")`. -/
def localSuffix (segs : List Chars) : Chars :=
  lstripSlash (pathStr segs)

/-!
## `StorageProviderSettings.__post_init__` (lines 182-206)

```python
def __post_init__(self):
    env_file = PosixPath(os.path.expanduser("~/.irods/irods_environment.json"))
    if env_file.exists():
        with open(env_file) as f:
            env = json.load(f)

        def retrieve(src, trgt):
            if src in env:
                setattr(self, trgt, env[src])

        retrieve("irods_host", "host")
        ... (fifteen calls, in source order)
```

The settings record is embedded as a function from a field enum to a JSON
value (`setattr` stores the raw JSON value, whatever its type); the
environment-descriptor file as a partial map from key to value.
-/

/-- A JSON value as stored into a settings field by `setattr`. -/
inductive JsonValue where
  | jstr (s : String)
  | jint (n : Int)
  | jbool (b : Bool)
  | jnull
deriving DecidableEq, Repr

/-- The fields of `StorageProviderSettings`, in declaration order. -/
inductive SettingsField where
  | host
  | port
  | username
  | password
  | zone
  | home
  | authenticationScheme
  | encryptionAlgorithm
  | encryptionKeySize
  | encryptionNumHashRounds
  | encryptionSaltSize
  | clientServerNegotiation
  | clientServerPolicy
  | sslVerifyServer
  | sslCaCertificateFile
  | useSsl
deriving DecidableEq, Repr

/-- The dataclass defaults of `StorageProviderSettings` (`None` is
`jnull`). -/
def defaultSettings : SettingsField → JsonValue
  | .host => .jnull
  | .port => .jnull
  | .username => .jnull
  | .password => .jnull
  | .zone => .jnull
  | .home => .jnull
  | .authenticationScheme => .jstr "native"
  | .encryptionAlgorithm => .jstr "AES-256-CBC"
  | .encryptionKeySize => .jint 32
  | .encryptionNumHashRounds => .jint 16
  | .encryptionSaltSize => .jint 8
  | .clientServerNegotiation => .jnull
  | .clientServerPolicy => .jstr "CS_NEG_REFUSE"
  | .sslVerifyServer => .jstr "hostname"
  | .sslCaCertificateFile => .jnull
  | .useSsl => .jbool false

/-- The inner `retrieve(src, trgt)` helper: if key `src` is present in the
environment file, overwrite field `trgt` with its value. -/
def retrieveStep (env : String → Option JsonValue) (src : String)
    (trgt : SettingsField) (s : SettingsField → JsonValue) :
    SettingsField → JsonValue :=
  match env src with
  | some v => fun f => if f = trgt then v else s f
  | none => s

/-- The fifteen `retrieve` calls of
`StorageProviderSettings.__post_init__`, as (key, field) pairs in source
order.  `use_ssl` has no corresponding key and is never retrieved. -/
def retrieveSeq : List (String × SettingsField) :=
  [("irods_host", .host),
   ("irods_port", .port),
   ("irods_user_name", .username),
   ("irods_password", .password),
   ("irods_zone_name", .zone),
   ("irods_authentication_scheme", .authenticationScheme),
   ("irods_home", .home),
   ("irods_encryption_algorithm", .encryptionAlgorithm),
   ("irods_encryption_key_size", .encryptionKeySize),
   ("irods_encryption_num_hash_rounds", .encryptionNumHashRounds),
   ("irods_encryption_salt_size", .encryptionSaltSize),
   ("irods_client_server_negotiation", .clientServerNegotiation),
   ("irods_client_server_policy", .clientServerPolicy),
   ("irods_ssl_verify_server", .sslVerifyServer),
   ("irods_ssl_ca_certificate_file", .sslCaCertificateFile)]

/-- `StorageProviderSettings.__post_init__`: when the environment file
exists, run the `retrieve` calls in order over the caller-constructed
settings; otherwise leave them unchanged. -/
def settingsPostInit (envFileExists : Bool)
    (env : String → Option JsonValue) (s : SettingsField → JsonValue) :
    SettingsField → JsonValue :=
  if envFileExists then
    retrieveSeq.foldl (fun acc kv => retrieveStep env kv.1 kv.2 acc) s
  else s

end Irods

namespace Irods

/-! ## Theorems for the claims -/

/-! ### Helper lemmas (shared) -/

/-- Monadic bind on a successful `Except` value. -/
theorem except_bind_ok {ε α β : Type} (a : α) (f : α → Except ε β) :
    (Except.ok a : Except ε α) >>= f = f a := rfl

/-- `pure` for `Except` is `Except.ok`. -/
theorem except_pure_eq {ε α : Type} (a : α) :
    (pure a : Except ε α) = Except.ok a := rfl

/-- On a tolerated lookup outcome, `mkdir` creates exactly the missing
collection. -/
theorem mkdirHelper_eq (look : Except IrodsExc Unit) (p : RPath)
    (h : mkdirOk look) :
    mkdirHelper look p =
      .ok (if look = .error .collectionDoesNotExist then [p] else []) := by
  rcases h with rfl | rfl | rfl <;> simp [mkdirHelper]

/-- When every lookup in the loop is a tolerated outcome, the `mkdir` loop
succeeds and creates exactly the paths whose lookup said
`CollectionDoesNotExist`, in loop order. -/
theorem ensureParents_eq_filter (collGet : RPath → Except IrodsExc Unit)
    (l : List RPath) (h : ∀ p ∈ l, mkdirOk (collGet p)) :
    ensureParents collGet l =
      .ok (l.filter
        (fun p => decide (collGet p = .error .collectionDoesNotExist))) := by
  induction l with
  | nil => rfl
  | cons p rest ih =>
      have hp := h p (List.mem_cons_self p rest)
      have hr := ih (fun q hq => h q (List.mem_cons_of_mem p hq))
      simp only [ensureParents, mkdirHelper_eq (collGet p) p hp, hr,
        List.filter_cons, except_bind_ok, except_pure_eq]
      by_cases hc : collGet p = .error .collectionDoesNotExist
      · simp [hc]
      · simp [hc]

/-- Taking all but the last two entries and reversing is reversing and
dropping the first two entries. -/
theorem take_sub_two_reverse {α : Type} (l : List α) :
    (l.take (l.length - 2)).reverse = l.reverse.drop 2 := by
  have h := List.rdrop_eq_reverse_drop_reverse l 2
  rw [List.rdrop] at h
  rw [h, List.reverse_reverse]

/-- `splitOnSlash` never returns the empty list. -/
theorem splitOnSlash_ne_nil (s : Chars) : splitOnSlash s ≠ [] := by
  cases s with
  | nil => simp [splitOnSlash]
  | cons c rest =>
      by_cases hc : c = '/'
      · simp [splitOnSlash, hc]
      · simp only [splitOnSlash, if_neg hc]
        match splitOnSlash rest with
        | [] => simp
        | h :: t => simp

/-- A slash-free string splits into a single piece. -/
theorem splitOnSlash_no_slash (s : Chars) (h : '/' ∉ s) :
    splitOnSlash s = [s] := by
  induction s with
  | nil => rfl
  | cons c rest ih =>
      have hc : c ≠ '/' := fun hh => h (hh ▸ List.mem_cons_self c rest)
      have ht : '/' ∉ rest := fun hh => h (List.mem_cons_of_mem c hh)
      simp only [splitOnSlash, if_neg hc, ih ht]

/-- Splitting distributes over concatenation at a separator. -/
theorem splitOnSlash_append (a b : Chars) :
    splitOnSlash (a ++ '/' :: b) = splitOnSlash a ++ splitOnSlash b := by
  induction a with
  | nil => simp [splitOnSlash]
  | cons c rest ih =>
      by_cases hc : c = '/'
      · simp [splitOnSlash, hc, ih]
      · obtain ⟨h, t, hht⟩ : ∃ h t, splitOnSlash rest = h :: t := by
          match hr : splitOnSlash rest with
          | [] => exact absurd hr (splitOnSlash_ne_nil rest)
          | h :: t => exact ⟨h, t, rfl⟩
        simp only [List.cons_append, splitOnSlash, if_neg hc, List.append_eq]
        rw [ih, hht]
        simp

/-- `takeWhile` up to the first slash returns the slash-free front. -/
theorem takeWhile_until_slash (a b : Chars) (h : '/' ∉ a) :
    (a ++ '/' :: b).takeWhile (fun c => c != '/') = a := by
  induction a with
  | nil => simp [List.takeWhile_cons]
  | cons c rest ih =>
      have hc : c ≠ '/' := fun hh => h (hh ▸ List.mem_cons_self c rest)
      have ht : '/' ∉ rest := fun hh => h (List.mem_cons_of_mem c hh)
      simp [List.takeWhile_cons, hc, ih ht]

/-- `dropWhile` up to the first slash returns the slash and what
follows. -/
theorem dropWhile_until_slash (a b : Chars) (h : '/' ∉ a) :
    (a ++ '/' :: b).dropWhile (fun c => c != '/') = '/' :: b := by
  induction a with
  | nil => simp [List.dropWhile_cons]
  | cons c rest ih =>
      have hc : c ≠ '/' := fun hh => h (hh ▸ List.mem_cons_self c rest)
      have ht : '/' ∉ rest := fun hh => h (List.mem_cons_of_mem c hh)
      simp [List.dropWhile_cons, hc, ih ht]

/-- Stripping leading slashes from a string whose front piece is nonempty
and slash-free changes nothing. -/
theorem lstripSlash_of_front (a b : Chars) (ha : a ≠ []) (h : '/' ∉ a) :
    lstripSlash (a ++ b) = a ++ b := by
  cases a with
  | nil => exact absurd rfl ha
  | cons c t =>
      have hc : c ≠ '/' := fun hh => h (hh ▸ List.mem_cons_self c t)
      simp [lstripSlash, List.dropWhile_cons, hc]

/-- C3: for a locator `scheme://H/p1/p2` (components nonempty and
slash-free), the resolved remote path computed at construction is
`/H/p1/p2` and `local_suffix()` is `H/p1/p2`. -/
theorem resolvedPath_c3 (H p1 p2 : Chars)
    (hH1 : H ≠ []) (hH2 : '/' ∉ H)
    (hp1 : p1 ≠ []) (hp2 : '/' ∉ p1)
    (hq1 : p2 ≠ []) (hq2 : '/' ∉ p2) :
    pathStr (resolvedSegs (urlparseRest (H ++ '/' :: p1 ++ '/' :: p2)))
      = '/' :: H ++ '/' :: p1 ++ '/' :: p2
    ∧ localSuffix (resolvedSegs (urlparseRest (H ++ '/' :: p1 ++ '/' :: p2)))
      = H ++ '/' :: p1 ++ '/' :: p2 := by
  have hnet : (H ++ '/' :: p1 ++ '/' :: p2).takeWhile (fun c => c != '/') = H := by
    rw [List.append_assoc]
    exact takeWhile_until_slash H (p1 ++ '/' :: p2) hH2
  have hpath : (H ++ '/' :: p1 ++ '/' :: p2).dropWhile (fun c => c != '/')
      = '/' :: (p1 ++ '/' :: p2) := by
    rw [List.append_assoc]
    exact dropWhile_until_slash H (p1 ++ '/' :: p2) hH2
  have hstrip : lstripSlash ('/' :: (p1 ++ '/' :: p2)) = p1 ++ '/' :: p2 := by
    show List.dropWhile _ ('/' :: (p1 ++ '/' :: p2)) = _
    rw [List.dropWhile_cons]
    simp only [beq_self_eq_true, if_true]
    exact lstripSlash_of_front p1 ('/' :: p2) hp1 hp2
  have hsegH : posixSegs ('/' :: H) = [H] := by
    have : splitOnSlash ('/' :: H) = [] :: splitOnSlash H := by
      simp [splitOnSlash]
    rw [posixSegs, this, splitOnSlash_no_slash H hH2]
    cases H with
    | nil => exact absurd rfl hH1
    | cons a t => simp [List.filter]
  have hsegP : posixSegs (p1 ++ '/' :: p2) = [p1, p2] := by
    rw [posixSegs, splitOnSlash_append, splitOnSlash_no_slash p1 hp2,
      splitOnSlash_no_slash p2 hq2]
    cases p1 with
    | nil => exact absurd rfl hp1
    | cons a t =>
        cases p2 with
        | nil => exact absurd rfl hq1
        | cons b u => simp [List.filter]
  have hsegs : resolvedSegs (urlparseRest (H ++ '/' :: p1 ++ '/' :: p2))
      = [H, p1, p2] := by
    rw [resolvedSegs, urlparseRest]
    simp only [List.append_assoc] at hnet hpath ⊢
    rw [hnet, hpath, hstrip, hsegH, hsegP]
    simp
  have hstr : pathStr [H, p1, p2] = '/' :: H ++ '/' :: p1 ++ '/' :: p2 := by
    simp [pathStr, List.foldl]
  refine ⟨by rw [hsegs, hstr], ?_⟩
  rw [localSuffix, hsegs, hstr]
  show List.dropWhile _ ('/' :: (H ++ '/' :: p1 ++ '/' :: p2)) = _
  rw [List.dropWhile_cons]
  simp only [beq_self_eq_true, if_true]
  rw [List.append_assoc]
  exact lstripSlash_of_front H ('/' :: p1 ++ '/' :: p2) hH1 hH2

/-- Witness for C3 at the locator `irods://tempZone/home/f.txt`. -/
theorem resolvedPath_c3_witness :
    pathStr (resolvedSegs (urlparseRest
        ("tempZone".toList ++ '/' :: "home".toList ++ '/' :: "f.txt".toList)))
      = '/' :: "tempZone".toList ++ '/' :: "home".toList ++ '/' :: "f.txt".toList
    ∧ localSuffix (resolvedSegs (urlparseRest
        ("tempZone".toList ++ '/' :: "home".toList ++ '/' :: "f.txt".toList)))
      = "tempZone".toList ++ '/' :: "home".toList ++ '/' :: "f.txt".toList := by
  have h := resolvedPath_c3 "tempZone".toList "home".toList "f.txt".toList
    (by decide) (by decide) (by decide) (by decide) (by decide) (by decide)
  exact ⟨h.1, h.2⟩

/-- A fold of `retrieve` steps never touches a field that is not among
its targets. -/
theorem retrieveFold_not_target (env : String → Option JsonValue)
    (l : List (String × SettingsField)) (s : SettingsField → JsonValue)
    (f : SettingsField) (hf : f ∉ l.map Prod.snd) :
    (l.foldl (fun acc kv => retrieveStep env kv.1 kv.2 acc) s) f = s f := by
  induction l generalizing s with
  | nil => rfl
  | cons kv rest ih =>
      have hf1 : f ≠ kv.2 := by
        intro hh
        exact hf (by simp [hh])
      have hf2 : f ∉ rest.map Prod.snd := by
        intro hh
        exact hf (by simp [hh])
      rw [List.foldl_cons, ih _ hf2]
      rw [retrieveStep]
      match env kv.1 with
      | some v => simp [if_neg hf1]
      | none => rfl

/-- A `retrieve` step whose key is present overwrites exactly its target
field. -/
theorem retrieveStep_present (env : String → Option JsonValue) (k : String)
    (t : SettingsField) (s : SettingsField → JsonValue) (v : JsonValue)
    (hv : env k = some v) :
    retrieveStep env k t s = fun f => if f = t then v else s f := by
  simp [retrieveStep, hv]

/-- A fold of `retrieve` steps with pairwise-distinct targets sets each
field whose key is present to the file's value. -/
theorem retrieveFold_target (env : String → Option JsonValue)
    (l : List (String × SettingsField)) (s : SettingsField → JsonValue)
    (k : String) (f : SettingsField) (v : JsonValue)
    (hmem : (k, f) ∈ l) (hnodup : (l.map Prod.snd).Nodup)
    (hv : env k = some v) :
    (l.foldl (fun acc kv => retrieveStep env kv.1 kv.2 acc) s) f = v := by
  induction l generalizing s with
  | nil => exact absurd hmem (List.not_mem_nil _)
  | cons kv rest ih =>
      rw [List.map_cons, List.nodup_cons] at hnodup
      rw [List.foldl_cons]
      rcases List.mem_cons.mp hmem with heq | hrest
      · have hkey : kv.1 = k := by rw [← heq]
        have htrgt : kv.2 = f := by rw [← heq]
        have hnot : f ∉ rest.map Prod.snd := htrgt ▸ hnodup.1
        rw [retrieveFold_not_target env rest _ f hnot, hkey,
          retrieveStep_present env k kv.2 s v hv]
        simp [htrgt]
      · exact ih _ hrest hnodup.2

/-- C5: when the environment-descriptor file exists, every settings field
whose key is present in it ends up with the file's value, unconditionally
overriding any caller-supplied value. -/
theorem settingsPostInit_spec (env : String → Option JsonValue)
    (s : SettingsField → JsonValue) (k : String) (f : SettingsField)
    (v : JsonValue) (hmap : (k, f) ∈ retrieveSeq) (hv : env k = some v) :
    settingsPostInit true env s f = v := by
  rw [settingsPostInit, if_pos rfl]
  exact retrieveFold_target env retrieveSeq s k f v hmap (by decide) hv

/-- Witness for C5: an environment file carrying `irods_host` overrides a
caller-supplied host. -/
theorem settingsPostInit_spec_witness :
    settingsPostInit true
      (fun k => if k = "irods_host" then some (.jstr "file-host") else none)
      (fun f => if f = .host then .jstr "cli-host" else defaultSettings f)
      .host = .jstr "file-host" := by
  exact settingsPostInit_spec _ _ "irods_host" .host (.jstr "file-host")
    (by decide) (by simp)

/-- C4: `exists()` returns `false` (and does not raise) when the lookup
fails with `CollectionDoesNotExist` or `DataObjectDoesNotExist`, returns
`true` when the lookup succeeds, and propagates every other lookup
failure unchanged. -/
theorem existsMethod_spec (lookup : Except IrodsExc Unit) :
    ((∃ u, lookup = .ok u) → existsMethod lookup = .ok true)
    ∧ (existsMethod lookup = .ok false ↔
        lookup = .error .collectionDoesNotExist
        ∨ lookup = .error .dataObjectDoesNotExist)
    ∧ (∀ e : IrodsExc, lookup = .error e →
        e ≠ .collectionDoesNotExist → e ≠ .dataObjectDoesNotExist →
        existsMethod lookup = .error e) := by
  refine ⟨?_, ?_, ?_⟩
  · rintro ⟨u, rfl⟩
    rfl
  · constructor
    · intro h
      match lookup with
      | .ok _ => simp [existsMethod] at h
      | .error .collectionDoesNotExist => exact Or.inl rfl
      | .error .dataObjectDoesNotExist => exact Or.inr rfl
      | .error .catNoAccessPermission => simp [existsMethod] at h
      | .error .catNameExistsAsDataObj => simp [existsMethod] at h
      | .error (.other m) => simp [existsMethod] at h
    · rintro (rfl | rfl) <;> rfl
  · rintro e rfl he1 he2
    match e, he1, he2 with
    | .catNoAccessPermission, _, _ => rfl
    | .catNameExistsAsDataObj, _, _ => rfl
    | .other m, _, _ => rfl
    | .collectionDoesNotExist, he1, _ => exact absurd rfl he1
    | .dataObjectDoesNotExist, _, he2 => exact absurd rfl he2

/-- Witness for C4 at concrete lookup outcomes. -/
theorem existsMethod_spec_witness :
    existsMethod (.error .collectionDoesNotExist) = .ok false
    ∧ existsMethod (.ok ()) = .ok true
    ∧ existsMethod (.error (.other "net down")) = .error (.other "net down") :=
  ⟨(existsMethod_spec (.error .collectionDoesNotExist)).2.1.2 (Or.inl rfl),
   (existsMethod_spec (.ok ())).1 ⟨(), rfl⟩,
   (existsMethod_spec (.error (.other "net down"))).2.2 (.other "net down")
     rfl (by decide) (by decide)⟩

/-- C6: `mtime()` returns `float(v)` for the value `v` of the first custom
`"mtime"` metadata attribute when one is present, and otherwise falls back
to the entry's native modification timestamp; both branches yield a
number. -/
theorem mtimeMethod_spec (pyfloat : String → ℚ) (modifyTs : ℚ)
    (meta : List (String × String)) :
    mtimeMethod pyfloat modifyTs meta =
      ((meta.find? (fun m => m.1 = "mtime")).map
        (fun m => pyfloat m.2)).getD modifyTs := by
  induction meta with
  | nil => rfl
  | cons m rest ih =>
      obtain ⟨n, v⟩ := m
      by_cases h : n = "mtime"
      · subst h
        simp [mtimeMethod, List.find?]
      · simp [mtimeMethod, List.find?, h, ih]

/-- C7: `remove()` attempts collection deletion first; exactly when that
attempt fails with the `CAT_NAME_EXISTS_AS_DATAOBJ` conflict it deletes
the path as a data object instead, so removing a stored leaf succeeds;
every other failure of the first attempt propagates. -/
theorem removeMethod_spec (collUnregister : Except IrodsExc Unit) :
    (removeMethod collUnregister = .ok .removedDataObject ↔
      collUnregister = .error .catNameExistsAsDataObj)
    ∧ ((∃ u, collUnregister = .ok u) →
        removeMethod collUnregister = .ok .removedCollection)
    ∧ (∀ e : IrodsExc, collUnregister = .error e →
        e ≠ .catNameExistsAsDataObj →
        removeMethod collUnregister = .error e) := by
  refine ⟨⟨?_, ?_⟩, ?_, ?_⟩
  · intro h
    match collUnregister with
    | .ok _ => simp [removeMethod] at h
    | .error .catNameExistsAsDataObj => rfl
    | .error .collectionDoesNotExist => simp [removeMethod] at h
    | .error .dataObjectDoesNotExist => simp [removeMethod] at h
    | .error .catNoAccessPermission => simp [removeMethod] at h
    | .error (.other m) => simp [removeMethod] at h
  · rintro rfl
    rfl
  · rintro ⟨u, rfl⟩
    rfl
  · rintro e rfl he
    match e, he with
    | .collectionDoesNotExist, _ => rfl
    | .dataObjectDoesNotExist, _ => rfl
    | .catNoAccessPermission, _ => rfl
    | .other m, _ => rfl
    | .catNameExistsAsDataObj, he => exact absurd rfl he

/-- Witness for C7: a stored leaf (collection deletion conflicts) is
removed as a data object; a collection is removed directly. -/
theorem removeMethod_spec_witness :
    removeMethod (.error .catNameExistsAsDataObj) = .ok .removedDataObject
    ∧ removeMethod (.ok ()) = .ok .removedCollection :=
  ⟨(removeMethod_spec (.error .catNameExistsAsDataObj)).1.2 rfl,
   (removeMethod_spec (.ok ())).2.1 ⟨(), rfl⟩⟩

/-- C1: when the remote path is a collection containing a leaf entry,
`retrieve_object` raises `AttributeError` (the `self.provoder`
misspelling) instead of fetching the entries; the single-leaf fallback on
`CollectionDoesNotExist` does work as claimed. -/
theorem retrieveObjectMethod_c1 :
    retrieveObjectMethod (.ok ["/tempZone/home/user/coll/a.txt"])
      "/tempZone/home/user/coll" "/tmp/stage/coll"
      = .error .attributeErrorProvoder
    ∧ retrieveObjectMethod (.error .collectionDoesNotExist)
      "/tempZone/home/user/f.txt" "/tmp/stage/f.txt"
      = .ok [⟨"/tempZone/home/user/f.txt", "/tmp/stage/f.txt"⟩] :=
  ⟨rfl, rfl⟩

/-- C2: `store_object` ensures every ancestor of the remote path except
the two topmost (creating exactly the missing ones, in topmost-first
order, tolerating no-access lookups); then a local directory is stored by
creating the remote collection and uploading each immediate child into
it, one level only, while a local file is uploaded to the remote leaf
path. -/
theorem storeObjectMethod_spec (collGet : RPath → Except IrodsExc Unit)
    (path : RPath) (localPath : String) (localIsDir : Bool)
    (localChildren : List String)
    (hanc : ∀ p ∈ parentsToMake path, mkdirOk (collGet p))
    (hself : localIsDir = true → mkdirOk (collGet path)) :
    parentsToMake path = (pathParents path).reverse.drop 2
    ∧ storeObjectMethod collGet path localPath localIsDir localChildren =
        .ok { created :=
                (parentsToMake path).filter
                  (fun p => decide (collGet p = .error .collectionDoesNotExist))
                ++ (if localIsDir = true
                      ∧ collGet path = .error .collectionDoesNotExist
                    then [path] else []),
              uploads :=
                if localIsDir then
                  localChildren.map (fun n => (localPath ++ "/" ++ n, path ++ [n]))
                else [(localPath, path)] } := by
  constructor
  · exact take_sub_two_reverse (pathParents path)
  · cases localIsDir with
    | false =>
        simp only [storeObjectMethod, ensureParents_eq_filter collGet _ hanc,
          except_bind_ok, except_pure_eq]
        simp
    | true =>
        simp only [storeObjectMethod, ensureParents_eq_filter collGet _ hanc,
          except_bind_ok, if_pos rfl, mkdirHelper_eq (collGet path) path
            (hself rfl), except_pure_eq]
        by_cases hc : collGet path = .error .collectionDoesNotExist
        · simp [hc]
        · simp [hc]

/-- Witness for C2: storing a local directory with two files under
`/tempZone/home/user/d` on a server where no collection exists yet. -/
theorem storeObjectMethod_spec_witness :
    (∀ p ∈ parentsToMake ["tempZone", "home", "user", "d"],
      mkdirOk ((fun _ => (Except.error IrodsExc.collectionDoesNotExist :
        Except IrodsExc Unit)) p))
    ∧ storeObjectMethod (fun _ => .error .collectionDoesNotExist)
        ["tempZone", "home", "user", "d"] "/tmp/stage/d" true
        ["a.txt", "b.txt"]
      = .ok ⟨[["tempZone", "home"], ["tempZone", "home", "user"],
              ["tempZone", "home", "user", "d"]],
             [("/tmp/stage/d/a.txt", ["tempZone", "home", "user", "d", "a.txt"]),
              ("/tmp/stage/d/b.txt",
                ["tempZone", "home", "user", "d", "b.txt"])]⟩ := by
  refine ⟨fun p _ => Or.inr (Or.inr rfl), ?_⟩
  have h := storeObjectMethod_spec (fun _ => .error .collectionDoesNotExist)
    ["tempZone", "home", "user", "d"] "/tmp/stage/d" true ["a.txt", "b.txt"]
    (fun p _ => Or.inr (Or.inr rfl)) (fun _ => Or.inr (Or.inr rfl))
  exact h.2.trans (by decide)

/-- C8: `list_candidate_matches` returns `None` — not an iterable of
concrete remote path strings — because its body is an unimplemented
bare `...` expression. -/
theorem listCandidateMatchesMethod_is_none :
    listCandidateMatchesMethod = none := rfl

/-- C9: with no password in the settings, provider initialization resolves
the password by de-obfuscating the credential-cache file and raises a
fatal error (no session) when that file cannot be read; with a password
supplied, the credential-cache file content is never consulted. -/
theorem providerPostInit_spec (scheme : String) (decode : String → String) :
    (∀ contents : String,
      providerPostInit none scheme decode (.ok contents) =
        .ok ⟨decode contents, "native"⟩)
    ∧ providerPostInit none scheme decode (.error ()) =
        .error .credentialUnavailable
    ∧ (∀ (pw : String) (file file' : Except Unit String),
        providerPostInit (some pw) scheme decode file =
          providerPostInit (some pw) scheme decode file'
        ∧ providerPostInit (some pw) scheme decode file = .ok ⟨pw, scheme⟩) := by
  exact ⟨fun _ => rfl, rfl, fun _ _ _ => ⟨rfl, rfl⟩⟩

/-- C10: whenever the credential-cache fallback is taken (no password in
the settings), the session is opened with authentication scheme
`"native"` regardless of the configured scheme; the configured scheme is
used exactly when an explicit password is supplied. -/
theorem providerPostInit_scheme (scheme : String) (decode : String → String) :
    (∀ contents : String,
      (providerPostInit none scheme decode (.ok contents)).map
        SessionCredentials.authenticationScheme = .ok "native")
    ∧ (∀ (pw : String) (file : Except Unit String),
        (providerPostInit (some pw) scheme decode file).map
          SessionCredentials.authenticationScheme = .ok scheme) := by
  exact ⟨fun _ => rfl, fun _ _ => rfl⟩

end Irods
